import Mathlib

/-!
  Shallow embedding of the "World" storage-contract code of the
  SociOS-Linux/workflow repository.

  Embedded source files:
  * packages/world-vercel/src/steps.ts   (deserializeStep, filterStepData)
  * the shared filters module            (filterRunData/filterStepData/
                                          filterEventData/filterHookData)
  * the filesystem steps storage         (createStepsStorage: get)
  * packages/world/src/serialization.ts  (SerializedDataSchema union)
  * the remote backend index             (createStorage)

  JavaScript dynamic values are embedded as the inductive `JSValue`.
  A missing object property and a property stored with value
  `undefined` are indistinguishable by property access in JavaScript,
  so the embedding represents both as `JSValue.undef`, and error
  objects are kept in a canonical three-field form
  (message, stack, code) with `undef` for fields the source object
  did not set.  JSON numbers are kept as integers when the literal
  has no fraction/exponent, otherwise as their raw literal text
  (`numF`); no claim below depends on floating-point behaviour.
-/

namespace Workflow

/-- Embedding of a JavaScript value (the dynamic `any` type of the
TypeScript source).  `undef` is JavaScript `undefined`; `bytes`
models a `Uint8Array` instance. -/
inductive JSValue where
  | undef : JSValue
  | null : JSValue
  | bool : Bool → JSValue
  | num : Int → JSValue
  | numF : String → JSValue
  | str : String → JSValue
  | bytes : List Nat → JSValue
  | arr : List JSValue → JSValue
  | obj : List (String × JSValue) → JSValue

/-- JavaScript truthiness (`if (v)`).  `undefined`, `null`, `false`,
`0` and the empty string are falsy.  (Float `0.0`/`NaN` falsiness is
not modelled; `numF` values are treated as truthy, which no claim
exercises.) -/
def truthy : JSValue → Bool
  | .undef => false
  | .null => false
  | .bool b => b
  | .num n => n != 0
  | .numF _ => true
  | .str s => s != ""
  | .bytes _ => true
  | .arr _ => true
  | .obj _ => true

/-- JavaScript nullish test (the left operand of `??` is replaced
exactly when it is `null` or `undefined`). -/
def isNullish : JSValue → Bool
  | .undef => true
  | .null => true
  | _ => false

/-- JavaScript nullish coalescing `a ?? b`. -/
def coalesce (a b : JSValue) : JSValue :=
  if isNullish a then b else a

/-- `typeof v === 'object'` — true for `null`, arrays, `Uint8Array`
and plain objects. -/
def typeofIsObject : JSValue → Bool
  | .null => true
  | .bytes _ => true
  | .arr _ => true
  | .obj _ => true
  | _ => false

/-- Property lookup in an object field list; a duplicate key keeps
the last binding, as in a JavaScript object literal / JSON.parse. -/
def getFieldList (fs : List (String × JSValue)) (key : String) : JSValue :=
  match fs.reverse.find? (fun p => p.1 == key) with
  | some p => p.2
  | none => (.undef)

/-- JavaScript property access `v.key` for the value kinds the source
touches: only plain objects carry the fields of interest; on every
other non-null value the access yields `undefined`.  (Access on
`null`/`undefined` throws in JavaScript; the one place the source can
do that is handled explicitly in `decodeErrorSource`.) -/
def getField (v : JSValue) (key : String) : JSValue :=
  match v with
  | .obj fs => getFieldList fs key
  | _ => (.undef)

/-- The opening-brace character, kept as a named constant. -/
def lbrace : Char := Char.ofNat 123

/-- The closing-brace character, kept as a named constant. -/
def rbrace : Char := Char.ofNat 125

def isWsChar (c : Char) : Bool :=
  c = ' ' || c = '\t' || c = '\n' || c = '\r'

def skipWs (cs : List Char) : List Char := cs.dropWhile isWsChar

def isDigitChar (c : Char) : Bool := '0' ≤ c && c ≤ '9'

def hexVal (c : Char) : Option Nat :=
  if '0' ≤ c && c ≤ '9' then some (c.toNat - 48)
  else if 'a' ≤ c && c ≤ 'f' then some (c.toNat - 87)
  else if 'A' ≤ c && c ≤ 'F' then some (c.toNat - 55)
  else none

/-- Consume the given literal characters from the input. -/
def expectLit : List Char → List Char → Option (List Char)
  | [], cs => some cs
  | _ :: _, [] => none
  | p :: ps, c :: cs => if c = p then expectLit ps cs else none

/-- JSON string body parser (after the opening quote), with the JSON
escape sequences.  Returns the decoded string and the rest of the
input after the closing quote. -/
def parseStringAux : List Char → List Char → Option (String × List Char)
  | [], _ => none
  | c :: rest, acc =>
    if c = '"' then some (String.mk acc.reverse, rest)
    else if c = '\\' then
      match rest with
      | [] => none
      | e :: rest2 =>
        if e = '"' then parseStringAux rest2 ('"' :: acc)
        else if e = '\\' then parseStringAux rest2 ('\\' :: acc)
        else if e = '/' then parseStringAux rest2 ('/' :: acc)
        else if e = 'n' then parseStringAux rest2 ('\n' :: acc)
        else if e = 't' then parseStringAux rest2 ('\t' :: acc)
        else if e = 'r' then parseStringAux rest2 ('\r' :: acc)
        else if e = 'b' then parseStringAux rest2 (Char.ofNat 8 :: acc)
        else if e = 'f' then parseStringAux rest2 (Char.ofNat 12 :: acc)
        else if e = 'u' then
          match rest2 with
          | a :: b :: c1 :: d :: rest3 =>
            match hexVal a, hexVal b, hexVal c1, hexVal d with
            | some ha, some hb, some hc, some hd =>
              parseStringAux rest3
                (Char.ofNat (((ha * 16 + hb) * 16 + hc) * 16 + hd) :: acc)
            | _, _, _, _ => none
          | _ => none
        else none
    else parseStringAux rest (c :: acc)

/-- A JSON int part beginning with `0` followed by more digits is
rejected by `JSON.parse`. -/
def leadingZero : List Char → Bool
  | d0 :: _ :: _ => d0 = '0'
  | _ => false

def digitsToNat (ds : List Char) : Nat :=
  ds.foldl (fun n c => n * 10 + (c.toNat - 48)) 0

/-- Optional JSON fraction part: returns the consumed characters
(empty when there is none) and the rest. -/
def parseFrac : List Char → Option (List Char × List Char)
  | [] => some ([], [])
  | c :: r =>
    if c = '.' then
      match r.span isDigitChar with
      | ([], _) => none
      | (fs, r2) => some ('.' :: fs, r2)
    else some ([], c :: r)

/-- Optional JSON exponent part: returns the consumed characters
(empty when there is none) and the rest. -/
def parseExp : List Char → Option (List Char × List Char)
  | [] => some ([], [])
  | c :: r =>
    if c = 'e' || c = 'E' then
      match r with
      | s :: r1 =>
        if s = '+' || s = '-' then
          match r1.span isDigitChar with
          | ([], _) => none
          | (ds, r2) => some (c :: s :: ds, r2)
        else
          match r.span isDigitChar with
          | ([], _) => none
          | (ds, r2) => some (c :: ds, r2)
      | [] => none
    else some ([], c :: r)

/-- JSON number parser.  An integer literal becomes `JSValue.num`;
a literal with a fraction or exponent part is kept as its raw text
(`JSValue.numF`) since floating point is outside this model. -/
def parseNumber (cs : List Char) : Option (JSValue × List Char) :=
  let (neg, cs1) :=
    match cs with
    | c :: r => if c = '-' then (true, r) else (false, cs)
    | [] => (false, cs)
  match cs1.span isDigitChar with
  | ([], _) => none
  | (ds, cs2) =>
    if leadingZero ds then none
    else
      match parseFrac cs2 with
      | none => none
      | some (fc, cs3) =>
        match parseExp cs3 with
        | none => none
        | some (ec, cs4) =>
          if fc.isEmpty && ec.isEmpty then
            some (.num (if neg then -(Int.ofNat (digitsToNat ds))
                        else Int.ofNat (digitsToNat ds)), cs4)
          else
            some (.numF (String.mk ((if neg then ['-'] else []) ++ ds ++ fc ++ ec)), cs4)

mutual

/-- Fuel-indexed JSON value parser modelling `JSON.parse`. -/
def parseVal : Nat → List Char → Option (JSValue × List Char)
  | 0, _ => none
  | Nat.succ fuel, cs =>
    match skipWs cs with
    | [] => none
    | c :: rest =>
      if c = '"' then
        match parseStringAux rest [] with
        | some (s, r) => some (.str s, r)
        | none => none
      else if c = lbrace then
        match skipWs rest with
        | c2 :: rest2 =>
          if c2 = rbrace then some (.obj [], rest2)
          else parseMembers fuel (c2 :: rest2) []
        | [] => none
      else if c = '[' then
        match skipWs rest with
        | c2 :: rest2 =>
          if c2 = ']' then some (.arr [], rest2)
          else parseItems fuel (c2 :: rest2) []
        | [] => none
      else if c = 'n' then
        match expectLit ['u', 'l', 'l'] rest with
        | some r => some (.null, r)
        | none => none
      else if c = 't' then
        match expectLit ['r', 'u', 'e'] rest with
        | some r => some (.bool true, r)
        | none => none
      else if c = 'f' then
        match expectLit ['a', 'l', 's', 'e'] rest with
        | some r => some (.bool false, r)
        | none => none
      else if c = '-' || isDigitChar c then parseNumber (c :: rest)
      else none

/-- Array items (after the opening bracket of a non-empty array). -/
def parseItems : Nat → List Char → List JSValue → Option (JSValue × List Char)
  | 0, _, _ => none
  | Nat.succ fuel, cs, acc =>
    match parseVal fuel cs with
    | none => none
    | some (v, rest) =>
      match skipWs rest with
      | [] => none
      | c :: rest2 =>
        if c = ',' then parseItems fuel rest2 (v :: acc)
        else if c = ']' then some (.arr (v :: acc).reverse, rest2)
        else none

/-- Object members (after the opening brace of a non-empty object). -/
def parseMembers : Nat → List Char → List (String × JSValue) →
    Option (JSValue × List Char)
  | 0, _, _ => none
  | Nat.succ fuel, cs, acc =>
    match skipWs cs with
    | [] => none
    | c :: rest =>
      if c = '"' then
        match parseStringAux rest [] with
        | none => none
        | some (key, rest2) =>
          match skipWs rest2 with
          | [] => none
          | c2 :: rest3 =>
            if c2 = ':' then
              match parseVal fuel rest3 with
              | none => none
              | some (v, rest4) =>
                match skipWs rest4 with
                | [] => none
                | c3 :: rest5 =>
                  if c3 = ',' then parseMembers fuel rest5 ((key, v) :: acc)
                  else if c3 = rbrace then
                    some (.obj ((key, v) :: acc).reverse, rest5)
                  else none
            else none
      else none

end

/-- Model of `JSON.parse`: parse one JSON value and require the rest
of the input to be whitespace; any failure models the thrown
`SyntaxError` (always caught at the single call site in the source). -/
def jsonParse (s : String) : Option JSValue :=
  match parseVal (s.length * 2 + 4) s.data with
  | some (v, rest) => if (skipWs rest).isEmpty then some v else none
  | none => none

mutual

/-- `String(v)` — JavaScript string conversion, used by
`deserializeStep` in the `{ message: String(parsed) }` branch.
Arrays stringify as their elements joined with commas (nested
`null`/`undefined` elements become empty), plain objects as
`[object Object]`. -/
def jsToString : JSValue → String
  | .undef => "undefined"
  | .null => "null"
  | .bool true => "true"
  | .bool false => "false"
  | .num n => toString n
  | .numF s => s
  | .str s => s
  | .bytes bs => String.intercalate "," (bs.map (fun b => toString b))
  | .obj _ => "[object Object]"
  | .arr xs => String.intercalate "," (jsElemStrings xs)

/-- Element strings for `Array.prototype.toString` (join with `,`):
`null` and `undefined` elements become the empty string. -/
def jsElemStrings : List JSValue → List String
  | [] => []
  | v :: vs =>
    (match v with
     | .undef => ""
     | .null => ""
     | w => jsToString w) :: jsElemStrings vs

end

/-- The caller-facing `resolveData` option: `'none' | 'all'`. -/
inductive ResolveData where
  | none : ResolveData
  | all : ResolveData

/-- One step record, with the wire-level dynamic fields.
`input`/`output` are the opaque `SerializedData` payload bytes
(`Option` models presence); `error`, `errorRef`, `inputRef` and
`outputRef` are dynamic values (`z.any()` / union typed on the wire),
with `JSValue.undef` for an absent property.  The identity and
bookkeeping fields are representative of `StepSchema` (whose
definition lives outside the embedded files); the embedded functions
only spread them through unchanged. -/
structure StepRec where
  runId : String
  stepId : String
  status : String
  createdAt : Int
  input : Option (List Nat)
  output : Option (List Nat)
  error : JSValue
  errorRef : JSValue
  inputRef : JSValue
  outputRef : JSValue

/-- Canonical structured-error object
`\x7b message, stack, code \x7d` in the three-field observational
form (see the file header). -/
def mkErr (message stack code : JSValue) : JSValue :=
  .obj [("message", message), ("stack", stack), ("code", code)]

/-- The error-normalisation block of `deserializeStep`
(packages/world-vercel/src/steps.ts lines 73-99), applied to
`errorSource = error ?? errorRef`:

* falsy source — `result.error` is never assigned (absent);
* string source — `JSON.parse` inside `try`; a parsed `null` passes
  the `typeof parsed === 'object'` test and then throws a `TypeError`
  on `parsed.message`, landing in the `catch` branch which uses the
  raw string as the message; a parsed object-typed value with a
  present `message` field maps `message`/`stack`/`code` directly;
  any other parsed value becomes `\x7b message: String(parsed) \x7d`;
  a parse failure becomes `\x7b message: rawString \x7d`;
* any other object-typed source maps fields directly with the
  `'Unknown error'` default for a nullish `message`;
* a truthy non-string non-object source assigns nothing. -/
def decodeErrorSource (src : JSValue) : JSValue :=
  if truthy src then
    match src with
    | .str s =>
      match jsonParse s with
      | some v =>
        if typeofIsObject v then
          match v with
          | .null => mkErr (.str s) .undef .undef
          | _ =>
            match getField v "message" with
            | .undef => mkErr (.str (jsToString v)) .undef .undef
            | m => mkErr m (getField v "stack") (getField v "code")
        else mkErr (.str (jsToString v)) .undef .undef
      | none => mkErr (.str s) .undef .undef
    | other =>
      if typeofIsObject other then
        mkErr (coalesce (getField other "message") (.str "Unknown error"))
          (getField other "stack") (getField other "code")
      else .undef
  else (.undef)

/-- `deserializeStep` (packages/world-vercel/src/steps.ts lines
61-102): destructures `error` and `errorRef` out of the wire step,
spreads the rest through, and assigns the normalised error computed
from `error ?? errorRef`. -/
def deserializeStep (wireStep : StepRec) : StepRec :=
  { wireStep with
    error := decodeErrorSource (coalesce wireStep.error wireStep.errorRef)
    errorRef := .undef }

/-- `filterStepData` of packages/world-vercel/src/steps.ts (lines
114-128): in `'none'` mode the `inputRef`/`outputRef` markers are
destructured away, the rest deserialized, and `input`/`output` set to
`undefined`; in `'all'` mode the step is deserialized unchanged. -/
def filterStepDataVercel (step : StepRec) (resolveData : ResolveData) : StepRec :=
  match resolveData with
  | .none =>
    let rest := { step with inputRef := .undef, outputRef := .undef }
    let deserialized := deserializeStep rest
    { deserialized with input := Option.none, output := Option.none }
  | .all => deserializeStep step

/-- A workflow run record (shared filters module).  Fields other than
the bulky `input`/`output` are representative; the filter spreads
them through unchanged. -/
structure RunRec where
  runId : String
  workflowName : String
  status : String
  createdAt : Int
  input : Option (List Nat)
  output : Option (List Nat)

/-- An event record.  `eventData` is the bulky payload. -/
structure EventRec where
  eventId : String
  runId : String
  eventType : String
  correlationId : Option String
  createdAt : Int
  eventData : Option JSValue

/-- A hook record.  `metadata` is the bulky payload. -/
structure HookRec where
  hookId : String
  runId : String
  token : String
  createdAt : Int
  metadata : Option JSValue

/-- `filterRunData` of the shared filters module: `'none'` spreads
the run with `input`/`output` set to `undefined`; `'all'` returns the
run unchanged. -/
def filterRunData (run : RunRec) (resolveData : ResolveData) : RunRec :=
  match resolveData with
  | .none => { run with input := Option.none, output := Option.none }
  | .all => run

/-- `filterStepData` of the shared filters module: `'none'` spreads
the step with `input`/`output` set to `undefined`; `'all'` returns
the step unchanged. -/
def filterStepData (step : StepRec) (resolveData : ResolveData) : StepRec :=
  match resolveData with
  | .none => { step with input := Option.none, output := Option.none }
  | .all => step

/-- `filterEventData` of the shared filters module: `'none'`
destructures `eventData` away (absent in the result); `'all'` returns
the event unchanged. -/
def filterEventData (event : EventRec) (resolveData : ResolveData) : EventRec :=
  match resolveData with
  | .none => { event with eventData := Option.none }
  | .all => event

/-- `filterHookData` of the shared filters module: `'none'`
destructures `metadata` away (absent in the result); `'all'` returns
the hook unchanged. -/
def filterHookData (hook : HookRec) (resolveData : ResolveData) : HookRec :=
  match resolveData with
  | .none => { hook with metadata := Option.none }
  | .all => hook

/-- JavaScript `s.endsWith(t)`. -/
def strEndsWith (s t : String) : Bool := t.data.isSuffixOf s.data

def splitOnCharAux (c : Char) : List Char → List Char → List String
  | [], acc => [String.mk acc.reverse]
  | x :: xs, acc =>
    if x = c then String.mk acc.reverse :: splitOnCharAux c xs []
    else splitOnCharAux c xs (x :: acc)

/-- JavaScript `s.split(c)` for a single-character separator: always
returns at least one (possibly empty) piece. -/
def splitOnChar (c : Char) (s : String) : List String :=
  splitOnCharAux c s.data []

/-- The contents of the filesystem backend's `steps/` directory: one
entry per JSON file, keyed by the file's basename without the `.json`
ending (the composite key `runId-stepId` under which the step was
written, per the documented filesystem layout). -/
abbrev StepsDir : Type := List (String × StepRec)

/-- Modelled from the spec: `listJSONFiles` (defined in the local
backend's `fs` module, not among the embedded files) returns the
basenames of the JSON files in the directory. -/
def listJSONFiles (dir : StepsDir) : List String :=
  (dir : List (String × StepRec)).map Prod.fst

/-- Modelled from the spec: `readJSON` (defined in the local
backend's `fs` module, not among the embedded files) reads and
validates one record, yielding nothing when the file is missing. -/
def readJSON (dir : StepsDir) (fileId : String) : Option StepRec :=
  ((dir : List (String × StepRec)).find? (fun e => e.1 == fileId)).map Prod.snd

/-- The shared tail of the filesystem `steps.get` (after a missing
`runId` has been recovered): build the composite key, read the file,
throw the NotFound error naming both ids when absent, and apply the
shared `filterStepData`. -/
def stepsGetWithRun (dir : StepsDir) (runId stepId : String)
    (resolveData : ResolveData) : Except String StepRec :=
  let compositeKey := runId ++ "-" ++ stepId
  match readJSON dir compositeKey with
  | Option.none =>
    .error ("Step " ++ stepId ++ " in run " ++ runId ++ " not found")
  | some step => .ok (filterStepData step resolveData)

/-- `createStepsStorage(...).get` of the filesystem backend: when
`runId` is absent, scan the step files for the first one whose name
ends with `-stepId`, throw NotFound (naming only the step id) when
none matches, and take the text before the first `-` of the matched
filename as the owning run id (`fileId.split('-')[0]`).  The source
defaults an absent `params.resolveData` from configuration defined
outside the embedded files; the already-defaulted mode is taken as an
argument here. -/
def stepsGet (dir : StepsDir) (runId : Option String) (stepId : String)
    (resolveData : ResolveData) : Except String StepRec :=
  match runId with
  | Option.none =>
    match (listJSONFiles dir).find?
        (fun fileId => strEndsWith fileId ("-" ++ stepId)) with
    | Option.none => .error ("Step " ++ stepId ++ " not found")
    | some fileId =>
      stepsGetWithRun dir ((splitOnChar '-' fileId).headD "") stepId resolveData
  | some rid => stepsGetWithRun dir rid stepId resolveData

/-- `BinarySerializedDataSchema` of packages/world/src/serialization.ts:
`z.instanceof(Uint8Array)` — accepts exactly byte payloads
(specVersion ≥ 2). -/
def binarySerializedDataSchemaAccepts : JSValue → Bool
  | .bytes _ => true
  | _ => false

/-- `LegacySerializedDataSchemaV1` of
packages/world/src/serialization.ts: `z.any()` — accepts every value
(specVersion 1 data had no fixed shape). -/
def legacySerializedDataSchemaV1Accepts : JSValue → Bool := fun _ => true

/-- `SerializedDataSchema` of packages/world/src/serialization.ts:
`z.union([BinarySerializedDataSchema, LegacySerializedDataSchemaV1])`
— a value passes when either branch accepts it. -/
def serializedDataSchemaAccepts (v : JSValue) : Bool :=
  binarySerializedDataSchemaAccepts v || legacySerializedDataSchemaV1Accepts v

/-- The imported per-operation functions the remote backend's
`createStorage` composes (each defined in its own module of the
world-vercel package; their bodies are irrelevant to the delegation
claim, so they are abstract here).  `Cfg` is the optional `APIConfig`
and `Res` the response type of one operation. -/
structure RemoteAPI (Cfg Res : Type) where
  getWorkflowRun : String → JSValue → Cfg → Res
  listWorkflowRuns : JSValue → Cfg → Res
  getStep : Option String → String → JSValue → Cfg → Res
  listWorkflowRunSteps : JSValue → Cfg → Res
  createWorkflowRunEvent : String → JSValue → JSValue → Cfg → Res
  getWorkflowRunEvents : JSValue → Cfg → Res
  getHook : String → JSValue → Cfg → Res
  getHookByToken : String → Cfg → Res
  listHooks : JSValue → Cfg → Res

/-- The namespaced `Storage` record the remote backend returns. -/
structure RemoteStorage (Res : Type) where
  runsGet : String → JSValue → Res
  runsList : JSValue → Res
  stepsGet : Option String → String → JSValue → Res
  stepsList : JSValue → Res
  eventsCreate : String → JSValue → JSValue → Res
  eventsList : JSValue → Res
  eventsListByCorrelationId : JSValue → Res
  hooksGet : String → JSValue → Res
  hooksGetByToken : String → Res
  hooksList : JSValue → Res

/-- `createStorage` of the remote backend's index module: every
namespace operation closes over `config` and delegates to the
corresponding imported function; both `events.list` and
`events.listByCorrelationId` delegate to `getWorkflowRunEvents`. -/
def createStorage {Cfg Res : Type} (api : RemoteAPI Cfg Res) (config : Cfg) :
    RemoteStorage Res :=
  { runsGet := fun id params => api.getWorkflowRun id params config
    runsList := fun params => api.listWorkflowRuns params config
    stepsGet := fun runId stepId params => api.getStep runId stepId params config
    stepsList := fun params => api.listWorkflowRunSteps params config
    eventsCreate := fun runId data params =>
      api.createWorkflowRunEvent runId data params config
    eventsList := fun params => api.getWorkflowRunEvents params config
    eventsListByCorrelationId := fun params =>
      api.getWorkflowRunEvents params config
    hooksGet := fun hookId params => api.getHook hookId params config
    hooksGetByToken := fun token => api.getHookByToken token config
    hooksList := fun params => api.listHooks params config }

/-- A decoded error field is well shaped when it is absent or a
structured error whose `message` is a string (the `stack`/`code`
fields are optional and unconstrained, matching `StructuredError`'s
`message: string, stack?: string, code?: string` with only `message`
required). -/
def errorWellShaped : JSValue → Bool
  | .undef => true
  | .obj (("message", .str _) :: _) => true
  | _ => false

/-- The wire error sources on which the deserializer is guaranteed to
produce a string `message`.  Excluded are exactly the two copy-as-is
cases of the source: an inline object source whose `message` field is
non-nullish yet not a string (a nullish one falls back to
`'Unknown error'` via `??`), and a JSON-encoded object whose parsed
`message` field is not `undefined` and not a string — a parsed JSON
`null` included, because the parsed branch tests only
`parsed.message !== undefined` and has no `'Unknown error'`
default. -/
def errSourceMsgOk : JSValue → Bool
  | .str s =>
    (match jsonParse s with
     | some (.obj fs) =>
       (match getFieldList fs "message" with
        | .undef => true
        | .str _ => true
        | _ => false)
     | _ => true)
  | .obj fs =>
    (match getFieldList fs "message" with
     | .undef => true
     | .null => true
     | .str _ => true
     | _ => false)
  | _ => true

/-- A concrete step record used by the concrete-input theorems. -/
def step0 : StepRec :=
  { runId := "r1"
    stepId := "s1"
    status := "completed"
    createdAt := 1
    input := some [1, 2]
    output := some [3]
    error := JSValue.undef
    errorRef := JSValue.undef
    inputRef := JSValue.undef
    outputRef := JSValue.undef }

/-- C1: for every entity, the `resolveData='none'` projection has the
bulky fields (`input`/`output` for runs and steps, `eventData` for
events, `metadata` for hooks) absent — never the stored payload and
never an empty placeholder — while the `resolveData='all'` projection
returns exactly the stored bulky fields; this holds for the shared
filters and for the world-vercel step filter alike. -/
theorem c1_projection_strips_bulky_fields :
    ∀ (r : RunRec) (s : StepRec) (e : EventRec) (k : HookRec),
      (filterRunData r ResolveData.none).input = Option.none ∧
      (filterRunData r ResolveData.none).output = Option.none ∧
      (filterRunData r ResolveData.all).input = r.input ∧
      (filterRunData r ResolveData.all).output = r.output ∧
      (filterStepData s ResolveData.none).input = Option.none ∧
      (filterStepData s ResolveData.none).output = Option.none ∧
      (filterStepData s ResolveData.all).input = s.input ∧
      (filterStepData s ResolveData.all).output = s.output ∧
      (filterEventData e ResolveData.none).eventData = Option.none ∧
      (filterEventData e ResolveData.all).eventData = e.eventData ∧
      (filterHookData k ResolveData.none).metadata = Option.none ∧
      (filterHookData k ResolveData.all).metadata = k.metadata ∧
      (filterStepDataVercel s ResolveData.none).input = Option.none ∧
      (filterStepDataVercel s ResolveData.none).output = Option.none ∧
      (filterStepDataVercel s ResolveData.all).input = s.input ∧
      (filterStepDataVercel s ResolveData.all).output = s.output :=
  fun _ _ _ _ =>
    ⟨rfl, rfl, rfl, rfl, rfl, rfl, rfl, rfl, rfl, rfl, rfl, rfl, rfl, rfl,
      rfl, rfl⟩

/-- C7: for every fully-decoded entity the shared `resolveData='all'`
projection returns the entity unchanged, and the `'none'` projection
is a copy that differs from the original only in the bulky fields —
every other field of the copy equals the original's (expressed as
equality with a record update touching only the bulky fields). -/
theorem c7_projection_frame :
    ∀ (r : RunRec) (s : StepRec) (e : EventRec) (k : HookRec),
      filterRunData r ResolveData.all = r ∧
      filterRunData r ResolveData.none =
        { r with input := Option.none, output := Option.none } ∧
      filterStepData s ResolveData.all = s ∧
      filterStepData s ResolveData.none =
        { s with input := Option.none, output := Option.none } ∧
      filterEventData e ResolveData.all = e ∧
      filterEventData e ResolveData.none = { e with eventData := Option.none } ∧
      filterHookData k ResolveData.all = k ∧
      filterHookData k ResolveData.none = { k with metadata := Option.none } :=
  fun _ _ _ _ => ⟨rfl, rfl, rfl, rfl, rfl, rfl, rfl, rfl⟩

/-- C9: every byte payload satisfies the current-format
`BinarySerializedDataSchema`, every value satisfies the legacy form
(`z.any()`), and hence every value passes the combined
`SerializedDataSchema` union — its validation-failure branch is
unreachable. -/
theorem c9_combined_schema_never_fails :
    ∀ (v : JSValue) (bs : List Nat),
      binarySerializedDataSchemaAccepts (JSValue.bytes bs) = true ∧
      legacySerializedDataSchemaV1Accepts v = true ∧
      serializedDataSchemaAccepts v = true := by
  intro v bs
  refine ⟨rfl, rfl, ?_⟩
  simp [serializedDataSchemaAccepts, legacySerializedDataSchemaV1Accepts]

/-- C10: in the remote backend's `createStorage`, `events.list` and
`events.listByCorrelationId` are built from the same underlying
function (`getWorkflowRunEvents`) applied to the same arguments, so
for every `params` value the two operations return identical
results, whatever the underlying function does. -/
theorem c10_events_list_delegation :
    ∀ (Cfg Res : Type) (api : RemoteAPI Cfg Res) (config : Cfg)
      (params : JSValue),
      (createStorage api config).eventsList params =
        (createStorage api config).eventsListByCorrelationId params :=
  fun _ _ _ _ _ => rfl

/-- C6: in the filesystem backend, fetching a step whose composite
key `runId-stepId` has no backing file fails with the thrown
NotFound error — never a null/absent success — and the failure
message names both the run id and the step id
(`Step stepId in run runId not found`). -/
theorem c6_get_missing_step_not_found :
    ∀ (dir : StepsDir) (runId stepId : String) (rd : ResolveData),
      readJSON dir (runId ++ "-" ++ stepId) = Option.none →
      stepsGet dir (some runId) stepId rd =
        Except.error ("Step " ++ stepId ++ " in run " ++ runId ++ " not found") := by
  intro dir runId stepId rd h
  simp [stepsGet, stepsGetWithRun, h]

/-- C6 witness: on an empty store, fetching step `s1` of run `r1`
yields exactly the NotFound failure naming both ids. -/
theorem c6_get_missing_step_not_found_witness :
    stepsGet ([] : StepsDir) (some "r1") "s1" ResolveData.all =
      Except.error "Step s1 in run r1 not found" :=
  c6_get_missing_step_not_found [] "r1" "s1" ResolveData.all rfl

/-- C2 counterexample: a wire step carrying both an inline error
(the plain string `boom`) and a resolved `errorRef` object with
message `refmsg` is deserialized from the inline field — the source
computes `error ?? errorRef`, so the resulting message is `boom`, not
the resolved reference's `refmsg`; the claim that the resolved
reference wins is false on this input. -/
theorem c2_counterexample_inline_wins :
    (deserializeStep { step0 with
        error := JSValue.str "boom"
        errorRef := mkErr (JSValue.str "refmsg") JSValue.undef JSValue.undef }).error
      = mkErr (JSValue.str "boom") JSValue.undef JSValue.undef ∧
    getField ((deserializeStep { step0 with
        error := JSValue.str "boom"
        errorRef := mkErr (JSValue.str "refmsg") JSValue.undef JSValue.undef }).error)
        "message"
      ≠ JSValue.str "refmsg" := by
  refine ⟨rfl, ?_⟩
  intro h
  injection h with h1
  exact absurd h1 (by decide)

/-- C2 amended: precedence is the reverse of the claim — the inline
`error` field wins whenever it is present (non-nullish), the resolved
`errorRef` being ignored entirely; the resolved reference is used
only when the inline field is `null`/`undefined`. -/
theorem c2_amended_inline_error_precedence :
    ∀ (st : StepRec),
      (isNullish st.error = false →
        deserializeStep st = deserializeStep { st with errorRef := JSValue.undef }) ∧
      (isNullish st.error = true →
        (deserializeStep st).error = decodeErrorSource st.errorRef) := by
  intro st
  constructor
  · intro h
    simp [deserializeStep, coalesce, h]
  · intro h
    simp [deserializeStep, coalesce, h]

/-- C2 amended witness: with inline error `inline` and a resolved
reference `ref` both present, the result is the same as if the
reference were absent. -/
theorem c2_amended_inline_error_precedence_witness :
    deserializeStep { step0 with
        error := JSValue.str "inline", errorRef := JSValue.str "ref" } =
      deserializeStep { step0 with
        error := JSValue.str "inline", errorRef := JSValue.undef } :=
  (c2_amended_inline_error_precedence
    { step0 with error := JSValue.str "inline", errorRef := JSValue.str "ref" }).1
    rfl

/-- C5 counterexample: with a single stored step whose owning run id
contains a dash (run `a-b`, step `c`, file `a-b-c`), fetching with
the correct run id succeeds, but fetching with an absent run id takes
`fileId.split('-')[0]` = `a` as the run id and fails with NotFound —
the two calls do not return the same record, refuting the claim for
arbitrary stored id values. -/
theorem c5_counterexample_dashed_run_id :
    stepsGet [("a-b-c", step0)] (some "a-b") "c" ResolveData.all =
      Except.ok step0 ∧
    stepsGet [("a-b-c", step0)] Option.none "c" ResolveData.all =
      Except.error "Step c in run a not found" ∧
    (Except.ok step0 : Except String StepRec) ≠
      Except.error "Step c in run a not found" := by
  refine ⟨rfl, rfl, ?_⟩
  intro h
  exact Except.noConfusion h

/-- C5 amended: reverse lookup agrees with direct lookup whenever the
first step file whose name ends in `-stepId` is exactly
`runId-stepId` and the text before the first dash of that filename is
the whole run id (as is the case when run ids contain no dash and the
step id matches no other file's suffix); under those conditions
`steps.get` with an absent run id returns the same result as with
the correct run id. -/
theorem c5_amended_reverse_lookup_agrees :
    ∀ (dir : StepsDir) (runId stepId : String) (rd : ResolveData),
      (listJSONFiles dir).find?
          (fun fileId => strEndsWith fileId ("-" ++ stepId)) =
        some (runId ++ "-" ++ stepId) →
      (splitOnChar '-' (runId ++ "-" ++ stepId)).headD "" = runId →
      stepsGet dir Option.none stepId rd = stepsGet dir (some runId) stepId rd := by
  intro dir runId stepId rd h1 h2
  simp only [stepsGet, h1]
  rw [h2]

/-- C5 amended witness: a store holding the single step file `r1-s1`;
lookup without a run id returns exactly the record that lookup with
run id `r1` returns. -/
theorem c5_amended_reverse_lookup_agrees_witness :
    stepsGet [("r1-s1", step0)] Option.none "s1" ResolveData.all =
      stepsGet [("r1-s1", step0)] (some "r1") "s1" ResolveData.all :=
  c5_amended_reverse_lookup_agrees [("r1-s1", step0)] "r1" "s1" ResolveData.all
    (by decide) (by decide)

/-- C4 counterexample: for the empty-string wire error the claim
mandates a JSON.parse attempt whose failure yields
`\x7b message: "" \x7d`, but the source's truthiness guard
(`if (errorSource)`) is false for `""`, so no parse is attempted and
the resulting error field is absent — not the mandated non-absent
structured error (parsing `""` does fail, shown alongside). -/
theorem c4_counterexample_empty_string :
    (deserializeStep { step0 with error := JSValue.str "" }).error = JSValue.undef ∧
    jsonParse "" = Option.none ∧
    JSValue.undef ≠ mkErr (JSValue.str "") JSValue.undef JSValue.undef := by
  refine ⟨rfl, rfl, ?_⟩
  intro h
  exact JSValue.noConfusion h

/-- C4 amended: for every non-empty string-valued wire error the
deserializer attempts `JSON.parse`: a parse failure yields
`message = rawString`; a parsed `null` also yields
`message = rawString` (the property access on `null` throws and the
`catch` falls back to the raw string); a parsed object-typed value
with a present `message` field maps `message`/`stack`/`code`
directly; any other parsed value yields `message = String(parsed)`.
The empty string is treated as an absent error (no parse attempt,
error absent).  An object-shaped wire error maps fields directly,
with `message` defaulting to `Unknown error` when nullish. -/
theorem c4_amended_string_error_decoding :
    (∀ (st : StepRec) (s : String), st.error = JSValue.str s → s ≠ "" →
      jsonParse s = Option.none →
      (deserializeStep st).error = mkErr (JSValue.str s) JSValue.undef JSValue.undef) ∧
    (∀ (st : StepRec) (s : String), st.error = JSValue.str s → s ≠ "" →
      jsonParse s = some JSValue.null →
      (deserializeStep st).error = mkErr (JSValue.str s) JSValue.undef JSValue.undef) ∧
    (∀ (st : StepRec) (s : String) (v : JSValue), st.error = JSValue.str s → s ≠ "" →
      jsonParse s = some v → typeofIsObject v = true → v ≠ JSValue.null →
      getField v "message" ≠ JSValue.undef →
      (deserializeStep st).error =
        mkErr (getField v "message") (getField v "stack") (getField v "code")) ∧
    (∀ (st : StepRec) (s : String) (v : JSValue), st.error = JSValue.str s → s ≠ "" →
      jsonParse s = some v → v ≠ JSValue.null →
      (typeofIsObject v = false ∨ getField v "message" = JSValue.undef) →
      (deserializeStep st).error =
        mkErr (JSValue.str (jsToString v)) JSValue.undef JSValue.undef) ∧
    (∀ (st : StepRec), st.error = JSValue.str "" →
      (deserializeStep st).error = JSValue.undef) ∧
    (∀ (st : StepRec) (fs : List (String × JSValue)), st.error = JSValue.obj fs →
      (deserializeStep st).error =
        mkErr (coalesce (getFieldList fs "message") (JSValue.str "Unknown error"))
          (getFieldList fs "stack") (getFieldList fs "code")) := by
  have hstr : ∀ (st : StepRec) (s : String), st.error = JSValue.str s → s ≠ "" →
      (deserializeStep st).error = decodeErrorSource (JSValue.str s) := by
    intro st s he hs
    simp [deserializeStep, he, coalesce, isNullish]
  have htruthy : ∀ (s : String), s ≠ "" → truthy (JSValue.str s) = true := by
    intro s hs
    simpa [truthy] using bne_iff_ne.mpr hs
  refine ⟨?_, ?_, ?_, ?_, ?_, ?_⟩
  · intro st s he hs hp
    rw [hstr st s he hs]
    simp [decodeErrorSource, htruthy s hs, hp]
  · intro st s he hs hp
    rw [hstr st s he hs]
    simp [decodeErrorSource, htruthy s hs, hp, typeofIsObject]
  · intro st s v he hs hp hobj hnull hmsg
    rw [hstr st s he hs]
    cases v with
    | null => exact absurd rfl hnull
    | obj fs =>
      cases hm : getFieldList fs "message"
      case undef => exact absurd (by simp [getField, hm]) hmsg
      all_goals
        simp [decodeErrorSource, htruthy s hs, hp, typeofIsObject, getField, hm]
    | arr xs => exact absurd (by simp [getField]) hmsg
    | bytes bs => exact absurd (by simp [getField]) hmsg
    | undef => simp [typeofIsObject] at hobj
    | bool b => simp [typeofIsObject] at hobj
    | num n => simp [typeofIsObject] at hobj
    | numF f => simp [typeofIsObject] at hobj
    | str t => simp [typeofIsObject] at hobj
  · intro st s v he hs hp hnull hother
    rw [hstr st s he hs]
    cases v with
    | null => exact absurd rfl hnull
    | obj fs =>
      rcases hother with hobj | hmsg
      · simp [typeofIsObject] at hobj
      · simp [decodeErrorSource, htruthy s hs, hp, typeofIsObject, hmsg]
    | arr xs => simp [decodeErrorSource, htruthy s hs, hp, typeofIsObject, getField]
    | bytes bs => simp [decodeErrorSource, htruthy s hs, hp, typeofIsObject, getField]
    | undef => simp [decodeErrorSource, htruthy s hs, hp, typeofIsObject]
    | bool b => simp [decodeErrorSource, htruthy s hs, hp, typeofIsObject]
    | num n => simp [decodeErrorSource, htruthy s hs, hp, typeofIsObject]
    | numF f => simp [decodeErrorSource, htruthy s hs, hp, typeofIsObject]
    | str t => simp [decodeErrorSource, htruthy s hs, hp, typeofIsObject]
  · intro st he
    simp [deserializeStep, he, coalesce, isNullish, decodeErrorSource, truthy]
  · intro st fs he
    simp [deserializeStep, he, coalesce, isNullish, decodeErrorSource, truthy,
      typeofIsObject, getField]

/-- C4 amended witness: the JSON-encoded structured error
`\x7b"message":"m","stack":"st"\x7d` parses to an object with a
`message` field and is mapped directly. -/
theorem c4_amended_string_error_decoding_witness :
    (deserializeStep { step0 with
        error := JSValue.str "\x7b\"message\":\"m\",\"stack\":\"st\"\x7d" }).error =
      mkErr (JSValue.str "m") (JSValue.str "st") JSValue.undef :=
  c4_amended_string_error_decoding.2.2.1
    { step0 with error := JSValue.str "\x7b\"message\":\"m\",\"stack\":\"st\"\x7d" }
    "\x7b\"message\":\"m\",\"stack\":\"st\"\x7d"
    (JSValue.obj [("message", JSValue.str "m"), ("stack", JSValue.str "st")])
    rfl (by decide) rfl rfl
    (fun h => JSValue.noConfusion h)
    (fun h => JSValue.noConfusion h)

/-- C3 counterexample: the JSON-encoded wire error
`\x7b"message":5\x7d` (a string among the claim's listed input
kinds) parses to an object whose `message` field is the number `5`;
the source copies it as-is, so the resulting error's `message` is not
a string, refuting the claim that the result is always absent or a
structured error with a string message. -/
theorem c3_counterexample_numeric_message :
    (deserializeStep { step0 with
        error := JSValue.str "\x7b\"message\":5\x7d" }).error =
      mkErr (JSValue.num 5) JSValue.undef JSValue.undef ∧
    errorWellShaped (mkErr (JSValue.num 5) JSValue.undef JSValue.undef) = false :=
  ⟨rfl, rfl⟩

/-- C3 amended: `deserializeStep` is total by construction and its
error field is always either absent or a three-field structured
error; the `message` is guaranteed to be a string except in the two
copy-as-is cases: an inline object source whose `message` field is
non-nullish and not a string, and a JSON-encoded object whose parsed
`message` field is not `undefined` and not a string — a parsed JSON
`null` included (the parsed branch checks only
`parsed.message !== undefined` and, unlike the inline branch, has no
`'Unknown error'` default) — such fields surface unchanged. -/
theorem c3_amended_error_absent_or_string_message :
    ∀ (st : StepRec),
      errSourceMsgOk (coalesce st.error st.errorRef) = true →
      errorWellShaped ((deserializeStep st).error) = true := by
  intro st
  show errSourceMsgOk (coalesce st.error st.errorRef) = true →
    errorWellShaped (decodeErrorSource (coalesce st.error st.errorRef)) = true
  generalize coalesce st.error st.errorRef = src
  intro h
  cases src with
  | undef => rfl
  | null => rfl
  | bool b => cases b <;> rfl
  | num n =>
    cases hn : (n != 0) <;>
      simp [decodeErrorSource, truthy, hn, typeofIsObject, errorWellShaped]
  | numF f => rfl
  | bytes bs => rfl
  | arr xs => rfl
  | obj fs =>
    cases hm : getFieldList fs "message"
    case undef =>
      simp [decodeErrorSource, truthy, typeofIsObject, getField, hm, coalesce,
        isNullish, mkErr, errorWellShaped]
    case null =>
      simp [decodeErrorSource, truthy, typeofIsObject, getField, hm, coalesce,
        isNullish, mkErr, errorWellShaped]
    case str m =>
      simp [decodeErrorSource, truthy, typeofIsObject, getField, hm, coalesce,
        isNullish, mkErr, errorWellShaped]
    all_goals simp [errSourceMsgOk, hm] at h
  | str s =>
    cases hs : (s != "") with
    | false => simp [decodeErrorSource, truthy, hs, errorWellShaped]
    | true =>
      cases hp : jsonParse s with
      | none => simp [decodeErrorSource, truthy, hs, hp, mkErr, errorWellShaped]
      | some v =>
        cases v with
        | obj fs =>
          cases hm : getFieldList fs "message"
          case undef =>
            simp [decodeErrorSource, truthy, hs, hp, typeofIsObject, getField,
              hm, mkErr, errorWellShaped]
          case str m =>
            simp [decodeErrorSource, truthy, hs, hp, typeofIsObject, getField,
              hm, mkErr, errorWellShaped]
          all_goals simp [errSourceMsgOk, hp, hm] at h
        | null =>
          simp [decodeErrorSource, truthy, hs, hp, typeofIsObject, mkErr,
            errorWellShaped]
        | arr xs =>
          simp [decodeErrorSource, truthy, hs, hp, typeofIsObject, getField,
            mkErr, errorWellShaped]
        | bytes bs =>
          simp [decodeErrorSource, truthy, hs, hp, typeofIsObject, getField,
            mkErr, errorWellShaped]
        | undef =>
          simp [decodeErrorSource, truthy, hs, hp, typeofIsObject, mkErr,
            errorWellShaped]
        | bool b =>
          simp [decodeErrorSource, truthy, hs, hp, typeofIsObject, mkErr,
            errorWellShaped]
        | num n =>
          simp [decodeErrorSource, truthy, hs, hp, typeofIsObject, mkErr,
            errorWellShaped]
        | numF f =>
          simp [decodeErrorSource, truthy, hs, hp, typeofIsObject, mkErr,
            errorWellShaped]
        | str t =>
          simp [decodeErrorSource, truthy, hs, hp, typeofIsObject, mkErr,
            errorWellShaped]

/-- C3 amended witness: the plain non-JSON string `oops` satisfies
the source condition and produces a well-shaped error. -/
theorem c3_amended_error_absent_or_string_message_witness :
    errorWellShaped ((deserializeStep { step0 with
      error := JSValue.str "oops" }).error) = true :=
  c3_amended_error_absent_or_string_message
    { step0 with error := JSValue.str "oops" } rfl

/-- C8: for a decoded step with no pending `inputRef`/`outputRef`
markers, no pending `errorRef`, and an already-normalized error field
(absent, or a structured error whose `message` is a string and whose
`stack`/`code` are absent or strings), the world-vercel
`filterStepData` and the shared `filterStepData` produce equal
results for both `resolveData='none'` and `resolveData='all'` — the
projection policy is uniform across the two backends. -/
theorem c8_filter_step_data_uniform :
    ∀ (s : StepRec) (rd : ResolveData),
      s.inputRef = JSValue.undef →
      s.outputRef = JSValue.undef →
      s.errorRef = JSValue.undef →
      (s.error = JSValue.undef ∨
        ∃ (m : String) (sv cv : JSValue),
          s.error = mkErr (JSValue.str m) sv cv ∧
          (sv = JSValue.undef ∨ ∃ t, sv = JSValue.str t) ∧
          (cv = JSValue.undef ∨ ∃ t, cv = JSValue.str t)) →
      filterStepDataVercel s rd = filterStepData s rd := by
  intro s rd h1 h2 h3 h4
  obtain ⟨runId, stepId, status, createdAt, input, output, error, errorRef,
    inputRef, outputRef⟩ := s
  dsimp only at h1 h2 h3
  subst h1
  subst h2
  subst h3
  rcases h4 with h4 | ⟨m, sv, cv, he, hsv, hcv⟩
  · dsimp only at h4
    subst h4
    cases rd <;> rfl
  · dsimp only at he
    subst he
    cases rd <;> rfl

/-- C8 witness: a concrete decoded step carrying a normalized error
with message `m`; the two filters agree in `'none'` mode. -/
theorem c8_filter_step_data_uniform_witness :
    filterStepDataVercel
        { step0 with error := mkErr (JSValue.str "m") JSValue.undef JSValue.undef }
        ResolveData.none =
      filterStepData
        { step0 with error := mkErr (JSValue.str "m") JSValue.undef JSValue.undef }
        ResolveData.none :=
  c8_filter_step_data_uniform
    { step0 with error := mkErr (JSValue.str "m") JSValue.undef JSValue.undef }
    ResolveData.none rfl rfl rfl
    (Or.inr ⟨"m", JSValue.undef, JSValue.undef, rfl, Or.inl rfl, Or.inl rfl⟩)

end Workflow
